import Mathlib

/-! Shallow embedding of src/forth.c (howerj/c-forth), a small FORTH interpreter.
Memory is the cell array `uint16_t m[CORESZ]`, modelled as a total function
`Nat → Nat`; every write goes through `mupd`, which masks the stored value to
16 bits exactly as storing into a `uint16_t` does.  The C string store `o->s`
is a byte view of the same array starting at byte offset STROFF; none of the
scenarios verified here writes across that alias, so the embedding keeps the
string store as a separate byte function `s` (the spec itself flags separating
the two regions as a safe choice).  The input stream is modelled at the two
granularities at which forth.c consumes it: `toks` for fscanf("%31s") token
reads and `bytes` for fgetc byte reads; the output stream is the byte list
`out`; WARN diagnostics written to stderr are recorded as the tag list `warns`,
and `warnRet` is the value the WARN fprintf call returns (the number of
characters of the diagnostic line, which is never 0). -/

namespace CForth

/-! Constants from the top of forth.c. -/

def CORESZ : Nat := (65535 + 1) / 2

def STROFF : Nat := CORESZ / 2

def STKSZ : Nat := CORESZ / 64

def BLKSZ : Nat := 1024

/-- CK(X) ((X) & 0x7fff), the 15-bit address mask used by LOAD and STORE. -/
def CK (x : Nat) : Nat := x &&& 0x7fff

/-! enum registers. -/

def DICTIONARY : Nat := 0

def RSTK : Nat := 1

def STATE : Nat := 8

def HEX : Nat := 9

/-! enum codes. -/

def PUSH : Nat := 0

def COMPILE : Nat := 1

def RUN : Nat := 2

def DEFINE : Nat := 3

def IMMEDIATE : Nat := 4

def COMMENT : Nat := 5

def READ : Nat := 6

def LOAD : Nat := 7

def STORE : Nat := 8

def SUB : Nat := 9

def ADD : Nat := 10

def MUL : Nat := 11

def DIV : Nat := 12

def LESS : Nat := 13

def EXIT : Nat := 14

def EMIT : Nat := 15

def KEY : Nat := 16

def FROMR : Nat := 17

def TOR : Nat := 18

def JMP : Nat := 19

def JMPZ : Nat := 20

def PNUM : Nat := 21

def QUOTE : Nat := 22

def COMMA : Nat := 23

def EQUAL : Nat := 24

def SWAP : Nat := 25

def DUP : Nat := 26

def DROP : Nat := 27

def TAIL : Nat := 28

def BSAVE : Nat := 29

def BLOAD : Nat := 30

def LAST : Nat := 31

/-! WARN diagnostic tags, one per distinct WARN call site in forth.c. -/

def wDivZero : Nat := 0

def wNotWord : Nat := 1

def wInvalidObj : Nat := 2

def wUnknown : Nat := 3

def wBlkArg : Nat := 4

def wBlkOpen : Nat := 5

/-! 16-bit helpers.  Cells are uint16_t, so stores truncate mod 2^16. -/

def u16 (v : Nat) : Nat := v % 65536

/-- uint16 decrement (v - 1 with wraparound at 0). -/
def dec16 (v : Nat) : Nat := (v + 65535) % 65536

/-- Truncation of a C integer value (e.g. a long returned by strtol or the int
returned by blockio) when assigned to a uint16_t. -/
def u16ofInt (i : Int) : Nat := (i % 65536).toNat

/-- Memory write `m[a] = v` on the uint16 cell array. -/
def mupd (m : Nat → Nat) (a v : Nat) : Nat → Nat :=
  fun i => if i = a then v % 65536 else m i

/-! The byte view of the cell array used by blockio (fread/fwrite move raw
bytes over the uint16 cells; the host in the original is little-endian). -/

def memByte (m : Nat → Nat) (i : Nat) : Nat :=
  if i % 2 = 0 then m (i / 2) % 256 else m (i / 2) / 256 % 256

def setByte (m : Nat → Nat) (i v : Nat) : Nat → Nat :=
  fun j =>
    if j = i / 2 then
      if i % 2 = 0 then m (i / 2) / 256 % 256 * 256 + v % 256
      else m (i / 2) % 256 + v % 256 * 256
    else m j

def writeBytes (m : Nat → Nat) (p : Nat) : List Nat → (Nat → Nat)
  | [] => m
  | b :: bs => writeBytes (setByte m p b) (p + 1) bs

def memBytes (m : Nat → Nat) (p n : Nat) : List Nat :=
  (List.range n).map fun k => memByte m (p + k)

/-! C strings in the byte store.  `cstr` reads the NUL-terminated byte string
at a given offset; the fuel bound FFUEL covers the whole address space, so for
any NUL-terminated string the fuel never runs out.  Two C strings are
strcmp-equal exactly when their `cstr` lists are equal. -/

def FFUEL : Nat := 65536

def cstr (s : Nat → Nat) : Nat → Nat → List Nat
  | 0, _ => []
  | fuel + 1, off => if s off = 0 then [] else s off :: cstr s fuel (off + 1)

def cstrLen (s : Nat → Nat) (off : Nat) : Nat := (cstr s FFUEL off).length

/-- strcmp(o->s, &o->s[m[w + 1]]) == 0: the token stored at byte offset 0 of
the string store equals the name of the dictionary entry at cell `w`. -/
def nameMatch (m s : Nat → Nat) (w : Nat) : Bool :=
  decide (cstr s FFUEL 0 = cstr s FFUEL (m (w + 1)))

/-- find: `for (w = o->L; strcmp(s, &s[m[w+1]]); w = m[w]); return w;`
The C loop has no fuel; the fuel argument is the embedding's termination
bound, and `none` models the loop failing to stop within that many links. -/
def findFuel (m s : Nat → Nat) : Nat → Nat → Option Nat
  | 0, _ => none
  | fuel + 1, w => if nameMatch m s w then some w else findFuel m s fuel (m w)

/-- isnum: `s += *s == '-' ? 1 : 0; return s[strspn(s, "0123456789")] == '\0';`
True when, after an optional leading minus sign, every byte is a decimal
digit. -/
def isnumB (tok : List Nat) : Bool :=
  (match tok with
    | 45 :: rest => rest
    | t => t).all fun c => decide (48 ≤ c) && decide (c ≤ 57)

/-! strtol(s, NULL, 0): optional sign, then a 0x/0X prefix selects base 16, a
leading 0 selects base 8, anything else base 10; parses the longest valid
digit prefix and clamps to the LP64 long range on overflow. -/

def digitVal (c : Nat) : Nat :=
  if 48 ≤ c ∧ c ≤ 57 then c - 48
  else if 97 ≤ c ∧ c ≤ 102 then c - 87
  else if 65 ≤ c ∧ c ≤ 70 then c - 55
  else 99

def parseNum (base : Nat) : List Nat → Nat → Nat
  | [], acc => acc
  | c :: rest, acc =>
      if digitVal c < base then parseNum base rest (acc * base + digitVal c) else acc

def LONG_MAX : Int := 2 ^ 63 - 1

def LONG_MIN : Int := -(2 ^ 63)

def strtol (tok : List Nat) : Int :=
  let signed : Bool × List Nat :=
    match tok with
    | 45 :: rest => (true, rest)
    | 43 :: rest => (false, rest)
    | t => (false, t)
  let based : Nat × List Nat :=
    match signed.2 with
    | 48 :: 120 :: rest => (16, rest)
    | 48 :: 88 :: rest => (16, rest)
    | 48 :: rest => (8, 48 :: rest)
    | t => (10, t)
  let v : Int := (parseNum based.1 based.2 0 : Nat)
  let v : Int := if signed.1 then -v else v
  if v > LONG_MAX then LONG_MAX else if v < LONG_MIN then LONG_MIN else v

/-! Output formatting for PNUM: fprintf(o->out, m[HEX] ? "%X" : "%u", f).
Digits are produced most-significant first; %X uses uppercase. -/

def digitByte (d : Nat) : Nat := if d < 10 then 48 + d else 55 + d

def digitsAux (base : Nat) : Nat → Nat → List Nat
  | 0, _ => []
  | fuel + 1, n => if n = 0 then [] else digitsAux base fuel (n / base) ++ [digitByte (n % base)]

def pnumBytes (base : Nat) (v : Nat) : List Nat :=
  if v = 0 then [48] else digitsAux base 17 v

/-! The external block store seen by blockio: which block files exist and are
readable, whether fopen("%04x.blk", "wb") succeeds, and how many bytes fwrite
reports written (fwrite can report a short count on an I/O error). -/

structure BlockEnv where
  fs : Nat → Option (List Nat)
  wOk : Nat → Bool
  wCount : Nat → Nat

structure BlockRes where
  status : Int
  mem : Nat → Nat
  fs : Nat → Option (List Nat)
  opened : Bool
  warns : List Nat

/-- blockio(p, poffset, id, rw).  `opened = true` records that an fopen call
was made (so a `false` means no external block was touched at all).  `poffset`
is a byte offset into the cell array, exactly as the C `void *` arithmetic
treats it. -/
def blockio (env : BlockEnv) (m : Nat → Nat) (poffset id : Nat) (rw : Char) : BlockRes :=
  if poffset > CORESZ - BLKSZ ∨ ¬(rw = 'w' ∨ rw = 'r') then
    { status := -1, mem := m, fs := env.fs, opened := false, warns := [wBlkArg] }
  else if rw = 'r' then
    match env.fs id with
    | none => { status := -1, mem := m, fs := env.fs, opened := true, warns := [wBlkOpen] }
    | some content =>
        { status := if min content.length BLKSZ = BLKSZ then 0 else -1
          mem := writeBytes m poffset (content.take BLKSZ)
          fs := env.fs, opened := true, warns := [] }
  else
    if env.wOk id then
      { status := if min (env.wCount id) BLKSZ = BLKSZ then 0 else -1
        mem := m
        fs := fun j => if j = id then some ((memBytes m poffset BLKSZ).take (min (env.wCount id) BLKSZ)) else env.fs j
        opened := true, warns := [] }
    else { status := -1, mem := m, fs := env.fs, opened := true, warns := [wBlkOpen] }

/-- The runtime object (struct forth_obj) plus the embedded views of its two
streams and of the external block store.  `Sp` is the data stack pointer o->S
as a cell index; `f` is the accumulator (cached top of the data stack). -/
structure Forth where
  m : Nat → Nat
  s : Nat → Nat
  L : Nat
  I : Nat
  Sp : Nat
  f : Nat
  t : Nat
  invalid : Bool
  toks : List (List Nat)
  bytes : List Nat
  out : List Nat
  warns : List Nat
  warnRet : Nat
  env : BlockEnv

/-- fscanf(in, "%31s", o->s): the read token (NUL-terminated) lands at byte
offset 0 of the string store. -/
def storeToken (s : Nat → Nat) (tok : List Nat) : Nat → Nat :=
  fun i =>
    if i < tok.length then tok.getD i 0
    else if i = tok.length then 0 else s i

/-- strcpy of `str` (plus the terminating NUL) at byte offset `off`. -/
def storeAt (s : Nat → Nat) (off : Nat) (str : List Nat) : Nat → Nat :=
  fun i =>
    if off ≤ i ∧ i < off + str.length then str.getD (i - off) 0
    else if i = off + str.length then 0 else s i

/-- m[m[0]++] = v: append a cell to the dictionary at the free pointer. -/
def dictAppend (st : Forth) (v : Nat) : Forth :=
  { st with m := mupd (mupd st.m (st.m 0) v) 0 (st.m 0 + 1) }

/-! One definition per switch case of forth_run (the cases that neither fail
nor re-enter the dispatcher; READ and DEFINE are handled below). -/

def pushCase (st : Forth) : Forth :=
  { st with Sp := st.Sp + 1, m := mupd st.m (st.Sp + 1) st.f, f := st.m st.I, I := u16 (st.I + 1) }

def compileCase (st : Forth) (xc : Nat) : Forth := dictAppend st xc

def runCase (st : Forth) (xc : Nat) : Forth :=
  let rs := u16 (st.m RSTK + 1)
  { st with m := mupd (mupd st.m RSTK rs) rs st.I, I := xc }

def immediateCase (st : Forth) : Forth :=
  dictAppend { st with m := mupd st.m 0 (st.m 0 + 65534) } RUN

def dropComment : List Nat → List Nat
  | [] => []
  | c :: rest => if c = 0 then rest else if c = 10 then rest else dropComment rest

def commentCase (st : Forth) : Forth := { st with bytes := dropComment st.bytes }

def loadCase (st : Forth) : Forth := { st with f := st.m (CK st.f) }

def storeCase (st : Forth) : Forth :=
  let m1 := mupd st.m (CK st.f) (st.m st.Sp)
  { st with m := m1, f := m1 (st.Sp - 1), Sp := st.Sp - 2 }

def subCase (st : Forth) : Forth :=
  { st with f := u16ofInt ((st.m st.Sp : Int) - (st.f : Int)), Sp := st.Sp - 1 }

def addCase (st : Forth) : Forth :=
  { st with f := u16 (st.m st.Sp + st.f), Sp := st.Sp - 1 }

def mulCase (st : Forth) : Forth :=
  { st with f := u16 (st.f * st.m st.Sp), Sp := st.Sp - 1 }

/-- DIV: the source line is `f = f ? *S-- / f : WARN("div 0"), 0;`.  By C
precedence this parses as `(f = (f ? *S-- / f : WARN("div 0"))), 0;`: in the
divide-by-zero branch the accumulator receives the return value of the WARN
fprintf call, the trailing `, 0` is a discarded constant expression, and the
data stack is not popped (the conditional's middle operand is not evaluated). -/
def divCase (st : Forth) : Forth :=
  if st.f ≠ 0 then { st with f := st.m st.Sp / st.f, Sp := st.Sp - 1 }
  else { st with f := u16 st.warnRet, warns := st.warns ++ [wDivZero] }

/-- LESS: `f = *S-- > f;` — the new accumulator is 1 exactly when the
second-from-top is GREATER than the old top. -/
def lessCase (st : Forth) : Forth :=
  { st with f := if st.m st.Sp > st.f then 1 else 0, Sp := st.Sp - 1 }

def exitCase (st : Forth) : Forth :=
  { st with I := st.m (st.m RSTK), m := mupd st.m RSTK (dec16 (st.m RSTK)) }

def emitCase (st : Forth) : Forth :=
  { st with out := st.out ++ [st.f % 256], f := st.m st.Sp, Sp := st.Sp - 1 }

def keyCase (st : Forth) : Forth :=
  match st.bytes with
  | [] => { st with Sp := st.Sp + 1, m := mupd st.m (st.Sp + 1) st.f, f := 65535 }
  | b :: rest =>
      { st with Sp := st.Sp + 1, m := mupd st.m (st.Sp + 1) st.f, f := b % 256, bytes := rest }

def fromrCase (st : Forth) : Forth :=
  let m1 := mupd st.m (st.Sp + 1) st.f
  { st with Sp := st.Sp + 1, f := m1 (m1 RSTK), m := mupd m1 RSTK (dec16 (m1 RSTK)) }

def torCase (st : Forth) : Forth :=
  let rs := u16 (st.m RSTK + 1)
  let m1 := mupd (mupd st.m RSTK rs) rs st.f
  { st with m := m1, f := m1 st.Sp, Sp := st.Sp - 1 }

def jmpCase (st : Forth) : Forth := { st with I := u16 (st.I + st.m st.I) }

def jmpzCase (st : Forth) : Forth :=
  { st with I := u16 (st.I + if st.f = 0 then st.m st.I else 1), f := st.m st.Sp, Sp := st.Sp - 1 }

def pnumCase (st : Forth) : Forth :=
  { st with out := st.out ++ (if st.m HEX = 0 then pnumBytes 10 st.f else pnumBytes 16 st.f)
            f := st.m st.Sp, Sp := st.Sp - 1 }

def quoteCase (st : Forth) : Forth :=
  { st with Sp := st.Sp + 1, m := mupd st.m (st.Sp + 1) st.f, f := st.m st.I, I := u16 (st.I + 1) }

def commaCase (st : Forth) : Forth :=
  let st1 := dictAppend st st.f
  { st1 with f := st1.m st.Sp, Sp := st.Sp - 1 }

def equalCase (st : Forth) : Forth :=
  { st with f := if st.m st.Sp = st.f then 1 else 0, Sp := st.Sp - 1 }

def swapCase (st : Forth) : Forth :=
  { st with f := st.m st.Sp, m := mupd st.m st.Sp st.f }

def dupCase (st : Forth) : Forth :=
  { st with Sp := st.Sp + 1, m := mupd st.m (st.Sp + 1) st.f }

def dropCase (st : Forth) : Forth := { st with f := st.m st.Sp, Sp := st.Sp - 1 }

def tailCase (st : Forth) : Forth :=
  { st with m := mupd st.m RSTK (dec16 (st.m RSTK)) }

def bsaveCase (st : Forth) : Forth :=
  let r := blockio st.env st.m (st.m st.Sp) st.f 'w'
  { st with f := u16ofInt r.status, m := r.mem, env := { st.env with fs := r.fs }
            warns := st.warns ++ r.warns, Sp := st.Sp - 1 }

def bloadCase (st : Forth) : Forth :=
  let r := blockio st.env st.m (st.m st.Sp) st.f 'r'
  { st with f := u16ofInt r.status, m := r.mem, env := { st.env with fs := r.fs }
            warns := st.warns ++ r.warns, Sp := st.Sp - 1 }

/-- compile_word(o, code, str): append the 3-cell header [link, name-offset,
tag], move the dictionary head L to the new link cell (`o->L = *m - 1`), and
write the name: a literal name is strcpy'd, otherwise a token is read from the
input.  Returns the fscanf result in the second component (1 on a successful
token read, -1 on end of input, 0 when a literal name was supplied). -/
def compile_word (st : Forth) (code : Nat) (str : Option (List Nat)) : Forth × Int :=
  let st1 := dictAppend st st.L
  let st2 := { st1 with L := dec16 (st1.m 0) }
  let st3 := dictAppend st2 st.t
  let st4 := dictAppend st3 code
  match str with
  | some nm =>
      let st5 := { st4 with s := storeAt st4.s st.t nm }
      ({ st5 with t := u16 (st.t + cstrLen st5.s st.t + 1) }, 0)
  | none =>
      match st4.toks with
      | [] => ({ st4 with t := u16 (st.t + cstrLen st4.s st.t + 1) }, -1)
      | tok :: rest =>
          let st5 := { st4 with s := storeAt st4.s st.t tok, toks := rest }
          ({ st5 with t := u16 (st.t + cstrLen st5.s st.t + 1) }, 1)

/-- Result of dispatching one instruction (or of the outer loop): `ok` means
the switch case completed and the outer loop goes on, `stop` is the clean
`return 0` (end of input in READ, or a 0 fetched by the outer loop), `fail` is
`return -(o->invalid = 1)`, and `nofuel` is the embedding's fuel bound running
out (the C code would still be running). -/
inductive Res where
  | ok : Forth → Res
  | stop : Forth → Res
  | fail : Forth → Res
  | nofuel : Res

/-- DEFINE: enter compile mode, read the new word's name (fatal on end of
input), append the RUN cell. -/
def defineCase (st : Forth) : Res :=
  let st0 := { st with m := mupd st.m STATE 1 }
  let p := compile_word st0 COMPILE none
  if p.2 < 0 then .fail { p.1 with invalid := true }
  else .ok (dictAppend p.1 RUN)

/-- The switch of forth_run, dispatching on the opcode cell m[x].  `x` is the
address of the cell being decoded; the C code's `m[x++]` post-increment is the
`xc` passed to the cases that use x afterwards.  The READ case's `goto INNER`
re-enters the switch, which is the only recursion; fuel only decreases there. -/
def exec : Nat → Forth → Nat → Res
  | 0, _, _ => .nofuel
  | fuel + 1, st, x =>
    let op := st.m x
    let xc := u16 (x + 1)
    if op = PUSH then .ok (pushCase st)
    else if op = COMPILE then .ok (compileCase st xc)
    else if op = RUN then .ok (runCase st xc)
    else if op = DEFINE then defineCase st
    else if op = IMMEDIATE then .ok (immediateCase st)
    else if op = COMMENT then .ok (commentCase st)
    else if op = READ then
      let st1 := { st with m := mupd st.m RSTK (dec16 (st.m RSTK)) }
      match st1.toks with
      | [] => .stop st1
      | tok :: rest =>
        let st2 := { st1 with s := storeToken st1.s tok, toks := rest }
        match findFuel st2.m st2.s FFUEL st2.L with
        | none => .nofuel
        | some w =>
          if w ≠ 1 then
            let x1 := u16 (w + 2)
            let x2 := if st2.m STATE = 0 ∧ st2.m x1 = COMPILE then u16 (x1 + 1) else x1
            exec fuel st2 x2
          else if ¬ isnumB tok then
            .ok { st2 with warns := st2.warns ++ [wNotWord] }
          else if st2.m STATE ≠ 0 then
            .ok (dictAppend (dictAppend st2 2) (u16ofInt (strtol tok)))
          else
            .ok { st2 with Sp := st2.Sp + 1, m := mupd st2.m (st2.Sp + 1) st2.f
                           f := u16ofInt (strtol tok) }
    else if op = LOAD then .ok (loadCase st)
    else if op = STORE then .ok (storeCase st)
    else if op = SUB then .ok (subCase st)
    else if op = ADD then .ok (addCase st)
    else if op = MUL then .ok (mulCase st)
    else if op = DIV then .ok (divCase st)
    else if op = LESS then .ok (lessCase st)
    else if op = EXIT then .ok (exitCase st)
    else if op = EMIT then .ok (emitCase st)
    else if op = KEY then .ok (keyCase st)
    else if op = FROMR then .ok (fromrCase st)
    else if op = TOR then .ok (torCase st)
    else if op = JMP then .ok (jmpCase st)
    else if op = JMPZ then .ok (jmpzCase st)
    else if op = PNUM then .ok (pnumCase st)
    else if op = QUOTE then .ok (quoteCase st)
    else if op = COMMA then .ok (commaCase st)
    else if op = EQUAL then .ok (equalCase st)
    else if op = SWAP then .ok (swapCase st)
    else if op = DUP then .ok (dupCase st)
    else if op = DROP then .ok (dropCase st)
    else if op = TAIL then .ok (tailCase st)
    else if op = BSAVE then .ok (bsaveCase st)
    else if op = BLOAD then .ok (bloadCase st)
    else .fail { st with invalid := true, warns := st.warns ++ [wUnknown] }

/-- One iteration of the outer loop `for (;(x = m[I++]);)`: fetch the cell at
the instruction pointer, advance it, stop cleanly on 0, otherwise dispatch. -/
def outerStep (fuel : Nat) (st : Forth) : Res :=
  let x := st.m st.I
  let st1 := { st with I := u16 (st.I + 1) }
  if x = 0 then .stop st1 else exec fuel st1 x

def runLoop : Nat → Forth → Res
  | 0, _ => .nofuel
  | fuel + 1, st =>
    match outerStep (fuel + 1) st with
    | .ok st2 => runLoop fuel st2
    | r => r

/-- forth_run.  On an invalid object it warns and returns
`-(o->invalid = 1) = -1` immediately, before touching any memory cell.
(The C function caches I, S, f in locals and never writes them back to the
object; the embedding returns the final state as a whole, which no claim
verified here distinguishes.)  The `-2` result is the fuel-exhaustion
artifact of the embedding. -/
def forth_run (fuel : Nat) (st : Forth) : Int × Forth :=
  if st.invalid then (-1, { st with invalid := true, warns := st.warns ++ [wInvalidObj] })
  else
    match runLoop fuel st with
    | .ok st2 => (0, st2)
    | .stop st2 => (0, st2)
    | .fail st2 => (-1, st2)
    | .nofuel => (-2, st)

/-! forth_init: the bootstrap.  The byte encodings below are the entries of
the C `names` table, in order, bound to opcodes READ, READ+1, ... -/

def names : List (List Nat) :=
  [[114, 101, 97, 100], [64], [33], [45], [43], [42], [47], [60],
   [101, 120, 105, 116], [101, 109, 105, 116], [107, 101, 121], [114, 62], [62, 114],
   [106], [106, 122], [46], [39], [44], [61],
   [115, 119, 97, 112], [100, 117, 112], [100, 114, 111, 112], [116, 97, 105, 108],
   [115, 97, 118, 101], [108, 111, 97, 100]]

def primLoop : Forth → List (List Nat) → Nat → Forth
  | st, [], _ => st
  | st, nm :: rest, w => primLoop (dictAppend (compile_word st COMPILE (some nm)).1 w) rest (w + 1)

def mkBlockEnv : BlockEnv := { fs := fun _ => none, wOk := fun _ => false, wCount := fun _ => 0 }

def forth_init (toks0 : List (List Nat)) (bytes0 : List Nat) (env0 : BlockEnv) (warnRet0 : Nat) : Forth :=
  let st : Forth :=
    { m := fun _ => 0, s := fun _ => 0, L := 0, I := 0, Sp := 0, f := 0, t := 0
      invalid := false, toks := toks0, bytes := bytes0, out := [], warns := []
      warnRet := warnRet0, env := env0 }
  let st := { st with m := mupd st.m 0 32, L := 1, t := 32 }
  let w := st.m 0
  let st := dictAppend st READ
  let st := dictAppend st RUN
  let st := { st with I := st.m 0 }
  let st := dictAppend st w
  let st := dictAppend st (st.I - 1)
  let st := (compile_word st DEFINE (some [58])).1
  let st := (compile_word st IMMEDIATE (some [105, 109, 109, 101, 100, 105, 97, 116, 101])).1
  let st := (compile_word st COMMENT (some [35])).1
  let st := primLoop st names READ
  let st := { st with m := mupd st.m RSTK (CORESZ - STKSZ) }
  { st with Sp := CORESZ - 2 * STKSZ }

/-! The dictionary link chain.  `Chain m w ws` says the list ws is the link
chain starting at entry w and following `w ↦ m w` down to the sentinel entry
at dictionary address 1 (where compile_word's very first link was stored and
whose name-offset cell m[2] is the PUSH opcode 0, i.e. byte offset 0 — the
very buffer the current token sits in, which is why the lookup loop always
stops there). -/
inductive Chain (m : Nat → Nat) : Nat → List Nat → Prop
  | sentinel : Chain m 1 [1]
  | step : ∀ w ws, w ≠ 1 → Chain m (m w) ws → Chain m w (w :: ws)

/-- The first entry along the chain whose stored name strcmp-matches the
token, defaulting to the sentinel 1. -/
def firstMatch (m s : Nat → Nat) : List Nat → Nat
  | [] => 1
  | w :: ws => if nameMatch m s w then w else firstMatch m s ws

/-! Projections out of a dispatch result, used to state concrete-input
theorems (Forth holds function-typed fields, so results are observed through
these finite projections). -/

def resState : Res → Option Forth
  | .ok st => some st
  | .stop st => some st
  | .fail st => some st
  | .nofuel => none

def resF (r : Res) : Option Nat := (resState r).map Forth.f

def resSp (r : Res) : Option Nat := (resState r).map Forth.Sp

def resWarns (r : Res) : Option (List Nat) := (resState r).map Forth.warns

def resInvalid (r : Res) : Option Bool := (resState r).map Forth.invalid

def isOk : Res → Bool
  | .ok _ => true
  | _ => false

/-- The state of the machine right after the READ case's prologue
`m[RSTK]--; fscanf(o->in, "%31s", o->s);`: the return-stack pointer register
is decremented and the token just read sits at byte offset 0 of the string
store. -/
def readState (st : Forth) (tok : List Nat) (rest : List (List Nat)) : Forth :=
  { st with m := mupd st.m RSTK (dec16 (st.m RSTK)), s := storeToken st.s tok, toks := rest }

def zeroFun : Nat → Nat := fun _ => 0

def mkForth (m0 s0 : Nat → Nat) : Forth :=
  { m := m0, s := s0, L := 1, I := 0, Sp := 31744, f := 0, t := 32, invalid := false
    toks := [], bytes := [], out := [], warns := [], warnRet := 30, env := mkBlockEnv }

def stInv : Forth := { mkForth zeroFun zeroFun with invalid := true }

def stW8 : Forth := { mkForth zeroFun zeroFun with f := 5 }

def stW10 : Forth := { mkForth zeroFun zeroFun with f := 65 }

def m3 : Nat → Nat := fun i => if i = 100 then 5 else 0

def st3 : Forth := { mkForth m3 zeroFun with f := 0, Sp := 100 }

def m6 : Nat → Nat := fun i => if i = 100 then 1 else 0

def m6b : Nat → Nat := fun i => if i = 100 then 2 else 0

def st6 : Forth := { mkForth m6 zeroFun with f := 2, Sp := 100 }

def st6b : Forth := { mkForth m6b zeroFun with f := 1, Sp := 100 }

def envW : BlockEnv :=
  { fs := fun _ => some (List.replicate 1024 7), wOk := fun _ => true, wCount := fun _ => 1024 }

/-- A dictionary memory for the dispatch witnesses: the bootstrap word at
cells 32..35 as forth_init lays it out, and one user-visible entry at cell 40
(link = 1, name-offset = 64, tag = COMPILE, body cell 43 = ADD) holding the
word "+"; cell 50 holds a bare READ opcode so the READ case can be entered
directly. -/
def mDict : Nat → Nat := fun i =>
  if i = 0 then 100
  else if i = 1 then 1000
  else if i = 8 then 0
  else if i = 32 then 6
  else if i = 33 then 2
  else if i = 34 then 32
  else if i = 35 then 33
  else if i = 40 then 1
  else if i = 41 then 64
  else if i = 42 then 1
  else if i = 43 then 10
  else if i = 50 then 6
  else 0

/-- String store for mDict: the name "+" (byte 43) NUL-terminated at offset 64. -/
def sDict : Nat → Nat := fun i => if i = 64 then 43 else 0

def mDict1 : Nat → Nat := fun i => if i = 8 then 1 else mDict i

def mDictR : Nat → Nat := fun i => if i = 42 then 2 else mDict i

def stA : Forth := { mkForth mDict sDict with L := 40, toks := [[43]] }

def stB : Forth := { mkForth mDict1 sDict with L := 40, toks := [[43]] }

def stC : Forth := { mkForth mDictR sDict with L := 40, toks := [[43]] }

/-- An empty-dictionary memory (lookup falls through to the sentinel 1):
cell 2 is 0 = PUSH, cell 50 a bare READ opcode, free pointer 100. -/
def mEmptyDict : Nat → Nat := fun i =>
  if i = 0 then 100 else if i = 1 then 1000 else if i = 50 then 6 else 0

def mEmptyDict1 : Nat → Nat := fun i => if i = 8 then 1 else mEmptyDict i

def stNumE : Forth := { mkForth mEmptyDict zeroFun with toks := [[55]], f := 7 }

def stNumC : Forth := { mkForth mEmptyDict1 zeroFun with toks := [[55]], f := 7 }

def stHex : Forth := { mkForth mEmptyDict zeroFun with toks := [[48, 120, 49, 48]], f := 7 }

def mW : Nat → Nat := fun i => if i = 5 then 1 else if i = 6 then 10 else 0

def sW : Nat → Nat := fun i => if i = 0 then 97 else if i = 1 then 98 else if i = 10 then 97 else 0

/-! Helper lemmas about the embedding's primitives. -/

theorem mupd_ne {m : Nat → Nat} {a i : Nat} (v : Nat) (h : i ≠ a) : mupd m a v i = m i := by
  simp [mupd, h]

theorem mupd_eq (m : Nat → Nat) (a v : Nat) : mupd m a v a = v % 65536 := by
  simp [mupd]

theorem u16_of_lt {v : Nat} (h : v < 65536) : u16 v = v := Nat.mod_eq_of_lt h

theorem u16ofInt_lt (i : Int) : u16ofInt i < 65536 := by
  unfold u16ofInt
  have h1 := Int.emod_nonneg i (by norm_num : (65536 : Int) ≠ 0)
  have h2 := Int.emod_lt_of_pos i (by norm_num : (0 : Int) < 65536)
  omega

/-- Claim C4: the invalid flag is a one-way latch — once it is set, every
call to forth_run returns the failure value -1 immediately, leaves every
memory cell unchanged, and keeps the flag set (so the same holds for all
subsequent calls). -/
theorem invalid_latch_fails_fast (st : Forth) (fuel : Nat) (h : st.invalid = true) :
    (forth_run fuel st).1 = -1 ∧ (forth_run fuel st).2.m = st.m ∧
    (forth_run fuel st).2.invalid = true := by
  simp [forth_run, h]

theorem invalid_latch_fails_fast_witness :
    (forth_run 5 stInv).1 = -1 ∧ (forth_run 5 stInv).2.m = stInv.m ∧
    (forth_run 5 stInv).2.invalid = true :=
  invalid_latch_fails_fast stInv 5 rfl

/-- Claim C8: the LOAD and STORE opcodes address memory only through the
15-bit mask CK, so the accessed cell index is always below CORESZ = 32768:
CK x < CORESZ for every x, LOAD reads exactly cell CK f (and writes no cell),
and STORE writes no cell other than CK f. -/
theorem ck_mask_bounds_load_store :
    (∀ x, CK x < CORESZ) ∧
    (∀ st : Forth, (loadCase st).f = st.m (CK st.f) ∧ (loadCase st).m = st.m) ∧
    (∀ (st : Forth) (i : Nat), i ≠ CK st.f → (storeCase st).m i = st.m i) := by
  refine ⟨fun x => ?_, fun st => ⟨rfl, rfl⟩, fun st i h => ?_⟩
  · have h1 : CK x ≤ 0x7fff := Nat.and_le_right
    have h2 : CORESZ = 32768 := rfl
    omega
  · show mupd st.m (CK st.f) (st.m st.Sp) i = st.m i
    exact mupd_ne _ h

theorem ck_mask_bounds_load_store_witness :
    (7 : Nat) ≠ CK stW8.f ∧ (storeCase stW8).m 7 = stW8.m 7 :=
  ⟨by decide, ck_mask_bounds_load_store.2.2 stW8 7 (by decide)⟩

/-- Claim C10: EMIT writes the accumulator to the output stream as one byte
and PNUM writes it formatted per the HEX register; both then pop the next
data-stack element into the accumulator, so the data-stack depth (stack cells
plus the cached accumulator) decreases by exactly one. -/
theorem emit_pnum_consume_value (st : Forth) (h : 0 < st.Sp) :
    (emitCase st).out = st.out ++ [st.f % 256] ∧ (emitCase st).f = st.m st.Sp ∧
    (emitCase st).Sp + 1 = st.Sp ∧
    (pnumCase st).out = st.out ++ (if st.m HEX = 0 then pnumBytes 10 st.f else pnumBytes 16 st.f) ∧
    (pnumCase st).f = st.m st.Sp ∧ (pnumCase st).Sp + 1 = st.Sp := by
  refine ⟨rfl, rfl, ?_, rfl, rfl, ?_⟩ <;>
    · show st.Sp - 1 + 1 = st.Sp
      omega

theorem emit_pnum_consume_value_witness :
    0 < stW10.Sp ∧ (emitCase stW10).Sp + 1 = stW10.Sp ∧ (pnumCase stW10).Sp + 1 = stW10.Sp :=
  ⟨by decide, (emit_pnum_consume_value stW10 (by decide)).2.2.1,
    (emit_pnum_consume_value stW10 (by decide)).2.2.2.2.2⟩

/-- Claim C3 (code bug in forth.c line 184): with a zero divisor the DIV case
does emit the diagnostic, does keep the invalid latch unset and does continue,
but the accumulator does NOT become 0: the C statement
`f = f ? *S-- / f : WARN("div 0"), 0;` assigns the ternary (whose else-branch
is just the WARN fprintf call) to f, so f receives fprintf's return value —
the diagnostic's character count (here modelled as 30) — and the trailing
`, 0` is discarded.  With a nonzero divisor the top two stack values are
correctly replaced by second-from-top / top. -/
theorem div_zero_accumulator_gets_warn_return :
    st3.f = 0 ∧ (divCase st3).f = 30 ∧ (divCase st3).f ≠ 0 ∧
    (divCase st3).warns = [wDivZero] ∧ (divCase st3).invalid = false ∧
    (divCase st3).Sp = st3.Sp ∧
    (divCase { st3 with f := 2 }).f = 2 ∧ (divCase { st3 with f := 2 }).Sp + 1 = st3.Sp := by
  decide

/-- Claim C6 (code bug in forth.c line 185): the word named "<" (enum LESS)
computes `*S-- > f`, i.e. second-from-top GREATER-than top.  With
second-from-top = 1 and top = 2 (where less-than is true) it yields 0, and
with second-from-top = 2 and top = 1 (where less-than is false) it yields 1 —
the claimed boolean is exactly inverted except on equal operands. -/
theorem less_opcode_computes_greater :
    st6.m st6.Sp < st6.f ∧ (lessCase st6).f = 0 ∧
    st6b.f < st6b.m st6b.Sp ∧ (lessCase st6b).f = 1 := by
  decide

/-- Claim C5 counterexample: the offset CORESZ - BLKSZ = 31744 lies outside
the claimed half-open interval [0, capacity - blockSize), yet blockio's check
`poffset > CORESZ - BLKSZ` accepts it: the call opens the block and returns
status 0, not the claimed failure-without-opening. -/
theorem blockio_boundary_offset_accepted :
    CORESZ - BLKSZ = 31744 ∧
    (blockio envW zeroFun 31744 5 'w').status = 0 ∧
    (blockio envW zeroFun 31744 5 'w').opened = true := by
  decide

/-- Claim C5 (amended: the validated interval is the CLOSED interval
[0, capacity - blockSize], since the check is `poffset > CORESZ - BLKSZ`):
outside that interval, or with a mode other than read/write, blockio returns
-1 without opening any external block and without touching memory; inside it,
the status is 0 exactly when the full 1024 bytes could be transferred (for a
read: the block exists and holds at least BLKSZ bytes; for a write: the block
could be opened and fwrite reported the full BLKSZ count); and the
BSAVE/BLOAD instruction cases never set the invalid flag — they store the
(uint16-truncated) status into the accumulator and continue. -/
theorem blockio_validation_amended :
    (∀ (env : BlockEnv) (m : Nat → Nat) (poffset id : Nat) (rw : Char),
      poffset > CORESZ - BLKSZ ∨ (rw ≠ 'w' ∧ rw ≠ 'r') →
      (blockio env m poffset id rw).status = -1 ∧ (blockio env m poffset id rw).opened = false ∧
      (blockio env m poffset id rw).mem = m) ∧
    (∀ (env : BlockEnv) (m : Nat → Nat) (poffset id : Nat), poffset ≤ CORESZ - BLKSZ →
      ((blockio env m poffset id 'r').status = 0 ↔
        ∃ content, env.fs id = some content ∧ BLKSZ ≤ content.length) ∧
      ((blockio env m poffset id 'w').status = 0 ↔ env.wOk id = true ∧ BLKSZ ≤ env.wCount id)) ∧
    (∀ st : Forth, (bsaveCase st).invalid = st.invalid ∧ (bloadCase st).invalid = st.invalid ∧
      (bsaveCase st).f = u16ofInt (blockio st.env st.m (st.m st.Sp) st.f 'w').status ∧
      (bloadCase st).f = u16ofInt (blockio st.env st.m (st.m st.Sp) st.f 'r').status) := by
  refine ⟨?_, ?_, fun st => ⟨rfl, rfl, rfl, rfl⟩⟩
  · rintro env m poffset id rw (h | ⟨h1, h2⟩)
    · unfold blockio
      rw [if_pos (Or.inl h)]
      exact ⟨rfl, rfl, rfl⟩
    · unfold blockio
      rw [if_pos (Or.inr (by push_neg; exact ⟨h1, h2⟩))]
      exact ⟨rfl, rfl, rfl⟩
  · intro env m poffset id hle
    have hnr : ¬(poffset > CORESZ - BLKSZ ∨ ¬(('r' : Char) = 'w' ∨ ('r' : Char) = 'r')) := by
      rintro (h | h)
      · omega
      · exact h (Or.inr rfl)
    have hnw : ¬(poffset > CORESZ - BLKSZ ∨ ¬(('w' : Char) = 'w' ∨ ('w' : Char) = 'r')) := by
      rintro (h | h)
      · omega
      · exact h (Or.inl rfl)
    constructor
    · unfold blockio
      rw [if_neg hnr, if_pos rfl]
      cases hfs : env.fs id with
      | none =>
        constructor
        · intro h
          have h2 : (-1 : Int) = 0 := h
          norm_num at h2
        · rintro ⟨c, hc, -⟩
          exact Option.noConfusion hc
      | some content =>
        show (if min content.length BLKSZ = BLKSZ then (0 : Int) else -1) = 0 ↔ _
        constructor
        · intro h
          refine ⟨content, rfl, ?_⟩
          by_contra hnc
          rw [if_neg (by simp only [BLKSZ] at hnc ⊢; omega)] at h
          norm_num at h
        · rintro ⟨c, hc, hlen⟩
          obtain rfl : content = c := by injection hc
          rw [if_pos (by simp only [BLKSZ] at hlen ⊢; omega)]
    · unfold blockio
      rw [if_neg hnw, if_neg (by decide : ¬('w' : Char) = 'r')]
      cases hok : env.wOk id with
      | false =>
        constructor
        · intro h
          have h2 : (-1 : Int) = 0 := h
          norm_num at h2
        · rintro ⟨hc, -⟩
          exact Bool.noConfusion hc
      | true =>
        show (if min (env.wCount id) BLKSZ = BLKSZ then (0 : Int) else -1) = 0 ↔ _
        constructor
        · intro h
          refine ⟨rfl, ?_⟩
          by_contra hnc
          rw [if_neg (by simp only [BLKSZ] at hnc ⊢; omega)] at h
          norm_num at h
        · rintro ⟨-, hlen⟩
          rw [if_pos (by simp only [BLKSZ] at hlen ⊢; omega)]

theorem blockio_validation_amended_witness :
    ((40000 : Nat) > CORESZ - BLKSZ ∨ (('w' : Char) ≠ 'w' ∧ ('w' : Char) ≠ 'r')) ∧
    (blockio envW zeroFun 40000 5 'w').status = -1 ∧
    (blockio envW zeroFun 40000 5 'w').opened = false ∧
    (0 : Nat) ≤ CORESZ - BLKSZ ∧
    ((blockio envW zeroFun 0 5 'r').status = 0 ↔
      ∃ content, envW.fs 5 = some content ∧ BLKSZ ≤ content.length) ∧
    (bsaveCase stW8).invalid = stW8.invalid :=
  ⟨Or.inl (by decide),
    (blockio_validation_amended.1 envW zeroFun 40000 5 'w' (Or.inl (by decide))).1,
    (blockio_validation_amended.1 envW zeroFun 40000 5 'w' (Or.inl (by decide))).2.1,
    by decide,
    (blockio_validation_amended.2.1 envW zeroFun 0 5 (by decide)).1,
    (blockio_validation_amended.2.2 stW8).1⟩

/-- Claim C2: find terminates on every token.  If the link chain from the
dictionary head L reaches the sentinel entry at address 1 (which forth_init
establishes and compile_word preserves), and cell 2 — the sentinel's
name-offset cell — is 0 (so the sentinel's "name" is byte offset 0, the very
buffer the token itself was read into, making the final comparison a
self-comparison that always succeeds), then find, run with fuel equal to the
chain length, stops and returns the first chain entry whose stored name
strcmp-equals the token, or the sentinel address 1 if no earlier entry
matches. -/
theorem find_terminates_first_match_or_sentinel (m s : Nat → Nat) (L : Nat) (ws : List Nat)
    (hc : Chain m L ws) (h2 : m 2 = 0) :
    findFuel m s ws.length L = some (firstMatch m s ws) ∧
    (firstMatch m s ws = 1 ∨
      (nameMatch m s (firstMatch m s ws) = true ∧ firstMatch m s ws ∈ ws)) := by
  induction hc with
  | sentinel =>
    have hm : nameMatch m s 1 = true := by
      have : m (1 + 1) = 0 := h2
      simp [nameMatch, this]
    constructor
    · simp [findFuel, firstMatch, hm]
    · left
      simp [firstMatch, hm]
  | step w ws hne hch ih =>
    by_cases hm : nameMatch m s w
    · constructor
      · simp [findFuel, firstMatch, hm]
      · right
        simp [firstMatch, hm]
    · obtain ⟨ih1, ih2⟩ := ih
      have hB : nameMatch m s w = false := by
        simpa using hm
      constructor
      · simpa [findFuel, firstMatch, hB] using ih1
      · rcases ih2 with h1 | ⟨hmm, hmem⟩
        · left
          simpa [firstMatch, hB] using h1
        · right
          refine ⟨by simpa [firstMatch, hB] using hmm, ?_⟩
          simp [firstMatch, hB]
          exact Or.inr hmem

theorem find_terminates_witness :
    findFuel mW sW 2 5 = some (firstMatch mW sW [5, 1]) ∧
    (firstMatch mW sW [5, 1] = 1 ∨
      (nameMatch mW sW (firstMatch mW sW [5, 1]) = true ∧ firstMatch mW sW [5, 1] ∈ [5, 1])) :=
  find_terminates_first_match_or_sentinel mW sW 5 [5, 1]
    (Chain.step 5 [1] (by decide) Chain.sentinel) rfl

/-! Dispatch lemmas: one unfolding of the forth_run switch per opcode. -/

theorem exec_compile_eq (st : Forth) (x fuel : Nat) (h : st.m x = COMPILE) :
    exec (fuel + 1) st x = .ok (compileCase st (u16 (x + 1))) := by
  simp [exec, h, PUSH, COMPILE]

theorem exec_run_eq (st : Forth) (x fuel : Nat) (h : st.m x = RUN) :
    exec (fuel + 1) st x = .ok (runCase st (u16 (x + 1))) := by
  simp [exec, h, PUSH, COMPILE, RUN]

/-- Unfolding of the READ case when the token is found in the dictionary
(find returns w ≠ 1): control re-enters the switch at the tag cell w + 2,
first skipping to body cell 0 when executing and the tag is COMPILE. -/
theorem exec_read_found (st : Forth) (x0 fuel w : Nat) (tok : List Nat) (rest : List (List Nat))
    (hop : st.m x0 = READ) (htok : st.toks = tok :: rest)
    (hfind : findFuel (mupd st.m RSTK (dec16 (st.m RSTK))) (storeToken st.s tok) FFUEL st.L = some w)
    (hw : w ≠ 1) :
    exec (fuel + 1) st x0 =
      exec fuel (readState st tok rest)
        (if (readState st tok rest).m STATE = 0 ∧ (readState st tok rest).m (u16 (w + 2)) = COMPILE
          then u16 (u16 (w + 2) + 1) else u16 (w + 2)) := by
  simp only [exec]
  rw [hop]
  simp only [READ, PUSH, COMPILE, RUN, DEFINE, IMMEDIATE, COMMENT]
  norm_num
  simp only [htok, hfind]
  rw [if_neg hw]
  rfl

/-- Unfolding of the READ case when the token is not found (find falls through
to the sentinel 1) and is not a number: diagnostic, token dropped, continue. -/
theorem exec_read_notnum (st : Forth) (x0 fuel : Nat) (tok : List Nat) (rest : List (List Nat))
    (hop : st.m x0 = READ) (htok : st.toks = tok :: rest)
    (hfind : findFuel (mupd st.m RSTK (dec16 (st.m RSTK))) (storeToken st.s tok) FFUEL st.L = some 1)
    (hnum : isnumB tok = false) :
    exec (fuel + 1) st x0 = .ok { readState st tok rest with warns := st.warns ++ [wNotWord] } := by
  simp only [exec]
  rw [hop]
  simp only [READ, PUSH, COMPILE, RUN, DEFINE, IMMEDIATE, COMMENT]
  norm_num
  simp only [htok, hfind]
  norm_num [hnum]
  simp [readState]

/-- Unfolding of the READ case for a number token while executing: the old
accumulator is pushed and the parsed value becomes the accumulator. -/
theorem exec_read_num_push (st : Forth) (x0 fuel : Nat) (tok : List Nat) (rest : List (List Nat))
    (hop : st.m x0 = READ) (htok : st.toks = tok :: rest)
    (hfind : findFuel (mupd st.m RSTK (dec16 (st.m RSTK))) (storeToken st.s tok) FFUEL st.L = some 1)
    (hnum : isnumB tok = true) (hst : st.m STATE = 0) :
    exec (fuel + 1) st x0 =
      .ok { readState st tok rest with
            Sp := st.Sp + 1, m := mupd (mupd st.m RSTK (dec16 (st.m RSTK))) (st.Sp + 1) st.f
            f := u16ofInt (strtol tok) } := by
  have h8 : mupd st.m RSTK (dec16 (st.m RSTK)) STATE = st.m STATE := mupd_ne _ (by decide)
  simp only [exec]
  rw [hop]
  simp only [READ, PUSH, COMPILE, RUN, DEFINE, IMMEDIATE, COMMENT]
  norm_num
  simp only [htok, hfind]
  norm_num [hnum, h8, hst]
  simp [readState]

/-- Unfolding of the READ case for a number token while compiling: the fake
push word's address 2 and the parsed value are appended to the dictionary. -/
theorem exec_read_num_append (st : Forth) (x0 fuel : Nat) (tok : List Nat) (rest : List (List Nat))
    (hop : st.m x0 = READ) (htok : st.toks = tok :: rest)
    (hfind : findFuel (mupd st.m RSTK (dec16 (st.m RSTK))) (storeToken st.s tok) FFUEL st.L = some 1)
    (hnum : isnumB tok = true) (hst : st.m STATE ≠ 0) :
    exec (fuel + 1) st x0 =
      .ok (dictAppend (dictAppend (readState st tok rest) 2) (u16ofInt (strtol tok))) := by
  have h8 : mupd st.m RSTK (dec16 (st.m RSTK)) STATE = st.m STATE := mupd_ne _ (by decide)
  simp only [exec]
  rw [hop]
  simp only [READ, PUSH, COMPILE, RUN, DEFINE, IMMEDIATE, COMMENT]
  norm_num
  simp only [htok, hfind]
  norm_num [hnum, h8, hst]
  simp [readState]

/-- Claim C1: top-level token dispatch obeys the mode rule.  For a token
resolved to entry w whose tag cell m[w+2] is the generic indirect tag COMPILE:
in execute mode (STATE register 0) dispatch proceeds directly from body cell 0
(cell w+3); in compile mode (STATE register 1) the indirect tag itself
executes, appending the address w+3 of body cell 0 to the growing definition
at the dictionary free pointer (dictAppend stores at m[0] and bumps it).  For
an entry whose tag cell is the call-marker RUN, the entry executes (the call
primitive runs, pushing the instruction pointer and jumping to body cell 0)
whatever the mode register holds. -/
theorem dispatch_mode_rule (st : Forth) (x0 w fuel : Nat) (tok : List Nat) (rest : List (List Nat))
    (hop : st.m x0 = READ) (htok : st.toks = tok :: rest)
    (hw : 1 < w) (hwlt : w + 3 < 65536)
    (hfind : findFuel (mupd st.m RSTK (dec16 (st.m RSTK))) (storeToken st.s tok) FFUEL st.L = some w) :
    (st.m STATE = 0 → st.m (w + 2) = COMPILE →
      exec (fuel + 1) st x0 = exec fuel (readState st tok rest) (w + 3)) ∧
    (st.m STATE = 1 → st.m (w + 2) = COMPILE →
      exec (fuel + 2) st x0 = .ok (dictAppend (readState st tok rest) (w + 3))) ∧
    (st.m (w + 2) = RUN →
      exec (fuel + 2) st x0 = .ok (runCase (readState st tok rest) (w + 3))) := by
  have hw1 : w ≠ 1 := by omega
  have hu2 : u16 (w + 2) = w + 2 := u16_of_lt (by omega)
  have hx3 : u16 (w + 2 + 1) = w + 3 := by unfold u16; omega
  have h8 : (readState st tok rest).m STATE = st.m STATE := by
    show mupd st.m RSTK (dec16 (st.m RSTK)) STATE = st.m STATE
    exact mupd_ne _ (by decide)
  have hw2 : (readState st tok rest).m (w + 2) = st.m (w + 2) := by
    show mupd st.m RSTK (dec16 (st.m RSTK)) (w + 2) = st.m (w + 2)
    exact mupd_ne _ (by simp only [RSTK]; omega)
  refine ⟨fun hst htag => ?_, fun hst htag => ?_, fun htag => ?_⟩
  · rw [exec_read_found st x0 fuel w tok rest hop htok hfind hw1]
    rw [if_pos ⟨by rw [h8, hst], by rw [hu2, hw2, htag]⟩]
    rw [hu2, hx3]
  · rw [exec_read_found st x0 (fuel + 1) w tok rest hop htok hfind hw1]
    rw [if_neg (by simp [h8, hst])]
    rw [hu2]
    rw [exec_compile_eq (readState st tok rest) (w + 2) fuel (by rw [hw2]; exact htag)]
    rw [hx3]
    rfl
  · rw [exec_read_found st x0 (fuel + 1) w tok rest hop htok hfind hw1]
    rw [if_neg (by simp [hu2, hw2, htag, RUN, COMPILE])]
    rw [hu2]
    rw [exec_run_eq (readState st tok rest) (w + 2) fuel (by rw [hw2]; exact htag)]
    rw [hx3]

theorem dispatch_mode_rule_witness :
    (exec 2 stA 50 = exec 1 (readState stA [43] []) 43) ∧
    (exec 3 stB 50 = .ok (dictAppend (readState stB [43] []) 43)) ∧
    (exec 3 stC 50 = .ok (runCase (readState stC [43] []) 43)) :=
  ⟨(dispatch_mode_rule stA 50 40 1 [43] [] (by decide) rfl (by decide) (by decide)
      (by decide)).1 (by decide) (by decide),
   (dispatch_mode_rule stB 50 40 1 [43] [] (by decide) rfl (by decide) (by decide)
      (by decide)).2.1 (by decide) (by decide),
   (dispatch_mode_rule stC 50 40 1 [43] [] (by decide) rfl (by decide) (by decide)
      (by decide)).2.2 (by decide)⟩

/-! Cell-level lemmas about dictionary appends. -/

theorem dictAppend_m_new (st : Forth) (v : Nat) (h0 : st.m 0 ≠ 0) :
    (dictAppend st v).m (st.m 0) = v % 65536 := by
  show mupd (mupd st.m (st.m 0) v) 0 (st.m 0 + 1) (st.m 0) = v % 65536
  rw [mupd_ne _ h0, mupd_eq]

theorem dictAppend_m_zero (st : Forth) (v : Nat) :
    (dictAppend st v).m 0 = (st.m 0 + 1) % 65536 := by
  show mupd (mupd st.m (st.m 0) v) 0 (st.m 0 + 1) 0 = _
  rw [mupd_eq]

theorem dictAppend_m_other (st : Forth) (v i : Nat) (h0 : i ≠ 0) (h1 : i ≠ st.m 0) :
    (dictAppend st v).m i = st.m i := by
  show mupd (mupd st.m (st.m 0) v) 0 (st.m 0 + 1) i = _
  rw [mupd_ne _ h0, mupd_ne _ h1]

/-- Claim C7 counterexample: the token "0x10" is a radix-prefixed integer
(strtol with base 0 parses it as 16), it is not found in the (empty)
dictionary, the machine is in execute mode — yet instead of pushing 16 onto
the data stack the READ case emits the "not a word or number" diagnostic and
discards the token, leaving the stack pointer and accumulator untouched,
because isnum accepts only an optional minus sign followed by decimal
digits. -/
theorem radix_prefixed_token_discarded :
    strtol [48, 120, 49, 48] = 16 ∧ isnumB [48, 120, 49, 48] = false ∧
    stHex.f = 7 ∧ resF (exec 1 stHex 50) = some 7 ∧
    resSp (exec 1 stHex 50) = some stHex.Sp ∧
    resWarns (exec 1 stHex 50) = some [wNotWord] := by
  decide

/-- Claim C7 (amended: the literal class is an optional minus sign followed
solely by decimal digits — that is what isnum accepts; radix-prefixed forms
such as 0x10, and plus signs, are rejected and fall into the diagnostic path.
The value of an accepted token is still parsed with strtol base-0 rules, so a
leading 0 reads as octal).  For every such token not found in the dictionary:
in compile mode two cells are appended at the dictionary free pointer — the
address 2 of the fake push word (whose cell m[2] holds the literal-push opcode
PUSH) followed by the parsed value — and in execute mode the old accumulator
is pushed and the value becomes the accumulator.  Any other unresolved token
produces a diagnostic, is discarded, and execution continues with the invalid
latch unchanged. -/
theorem number_literal_handling_amended (st : Forth) (x0 fuel : Nat) (tok : List Nat)
    (rest : List (List Nat))
    (hop : st.m x0 = READ) (htok : st.toks = tok :: rest)
    (hfind : findFuel (mupd st.m RSTK (dec16 (st.m RSTK))) (storeToken st.s tok) FFUEL st.L = some 1)
    (hm0 : 2 < st.m 0) (hm0b : st.m 0 + 2 < 65536) (hm2 : st.m 2 = PUSH) :
    (isnumB tok = true → st.m STATE ≠ 0 →
      exec (fuel + 1) st x0 =
        .ok (dictAppend (dictAppend (readState st tok rest) 2) (u16ofInt (strtol tok))) ∧
      (dictAppend (dictAppend (readState st tok rest) 2) (u16ofInt (strtol tok))).m (st.m 0) = 2 ∧
      (dictAppend (dictAppend (readState st tok rest) 2) (u16ofInt (strtol tok))).m (st.m 0 + 1) =
        u16ofInt (strtol tok) ∧
      (dictAppend (dictAppend (readState st tok rest) 2) (u16ofInt (strtol tok))).m 2 = PUSH ∧
      (dictAppend (dictAppend (readState st tok rest) 2) (u16ofInt (strtol tok))).m 0 = st.m 0 + 2) ∧
    (isnumB tok = true → st.m STATE = 0 →
      exec (fuel + 1) st x0 =
        .ok { readState st tok rest with
              Sp := st.Sp + 1, m := mupd (mupd st.m RSTK (dec16 (st.m RSTK))) (st.Sp + 1) st.f
              f := u16ofInt (strtol tok) }) ∧
    (isnumB tok = false →
      exec (fuel + 1) st x0 = .ok { readState st tok rest with warns := st.warns ++ [wNotWord] } ∧
      resSp (exec (fuel + 1) st x0) = some st.Sp ∧ resF (exec (fuel + 1) st x0) = some st.f ∧
      resInvalid (exec (fuel + 1) st x0) = some st.invalid ∧
      isOk (exec (fuel + 1) st x0) = true) := by
  have hv : u16ofInt (strtol tok) < 65536 := u16ofInt_lt _
  refine ⟨fun hnum hst => ?_, fun hnum hst => exec_read_num_push st x0 fuel tok rest hop htok hfind hnum hst, fun hnum => ?_⟩
  · have hr0 : (readState st tok rest).m 0 = st.m 0 := by
      show mupd st.m RSTK (dec16 (st.m RSTK)) 0 = st.m 0
      exact mupd_ne _ (by decide)
    have hr2 : (readState st tok rest).m 2 = st.m 2 := by
      show mupd st.m RSTK (dec16 (st.m RSTK)) 2 = st.m 2
      exact mupd_ne _ (by decide)
    have hA0 : (dictAppend (readState st tok rest) 2).m 0 = st.m 0 + 1 := by
      rw [dictAppend_m_zero, hr0, Nat.mod_eq_of_lt (by omega)]
    have hAnew : (dictAppend (readState st tok rest) 2).m (st.m 0) = 2 := by
      have h := dictAppend_m_new (readState st tok rest) 2 (by rw [hr0]; omega)
      rw [hr0] at h
      simpa using h
    have hA2 : (dictAppend (readState st tok rest) 2).m 2 = st.m 2 := by
      have h := dictAppend_m_other (readState st tok rest) 2 2 (by omega) (by rw [hr0]; omega)
      rw [hr2] at h
      exact h
    have hBnew : (dictAppend (dictAppend (readState st tok rest) 2) (u16ofInt (strtol tok))).m
        (st.m 0 + 1) = u16ofInt (strtol tok) := by
      have h := dictAppend_m_new (dictAppend (readState st tok rest) 2) (u16ofInt (strtol tok))
        (by rw [hA0]; omega)
      rw [hA0, Nat.mod_eq_of_lt hv] at h
      exact h
    have hB0 : (dictAppend (dictAppend (readState st tok rest) 2) (u16ofInt (strtol tok))).m 0 =
        st.m 0 + 2 := by
      rw [dictAppend_m_zero, hA0, Nat.mod_eq_of_lt (by omega)]
    have hBold : (dictAppend (dictAppend (readState st tok rest) 2) (u16ofInt (strtol tok))).m
        (st.m 0) = 2 := by
      rw [dictAppend_m_other (dictAppend (readState st tok rest) 2) (u16ofInt (strtol tok))
        (st.m 0) (by omega) (by rw [hA0]; omega), hAnew]
    have hB2 : (dictAppend (dictAppend (readState st tok rest) 2) (u16ofInt (strtol tok))).m 2 =
        PUSH := by
      rw [dictAppend_m_other (dictAppend (readState st tok rest) 2) (u16ofInt (strtol tok))
        2 (by omega) (by rw [hA0]; omega), hA2, hm2]
    exact ⟨exec_read_num_append st x0 fuel tok rest hop htok hfind hnum hst,
      hBold, hBnew, hB2, hB0⟩
  · have he := exec_read_notnum st x0 fuel tok rest hop htok hfind hnum
    refine ⟨he, ?_, ?_, ?_, ?_⟩ <;> rw [he] <;> rfl

theorem number_literal_handling_amended_witness :
    isnumB [55] = true ∧
    exec 1 stNumC 50 =
      .ok (dictAppend (dictAppend (readState stNumC [55] []) 2) (u16ofInt (strtol [55]))) ∧
    (dictAppend (dictAppend (readState stNumC [55] []) 2) (u16ofInt (strtol [55]))).m
      (stNumC.m 0) = 2 ∧
    exec 1 stNumE 50 =
      .ok { readState stNumE [55] [] with
            Sp := stNumE.Sp + 1
            m := mupd (mupd stNumE.m RSTK (dec16 (stNumE.m RSTK))) (stNumE.Sp + 1) stNumE.f
            f := u16ofInt (strtol [55]) } ∧
    isnumB [48, 120, 49, 48] = false ∧
    resSp (exec 1 stHex 50) = some stHex.Sp :=
  ⟨by decide,
   ((number_literal_handling_amended stNumC 50 0 [55] [] (by decide) rfl (by decide) (by decide)
      (by decide) (by decide)).1 (by decide) (by decide)).1,
   ((number_literal_handling_amended stNumC 50 0 [55] [] (by decide) rfl (by decide) (by decide)
      (by decide) (by decide)).1 (by decide) (by decide)).2.1,
   (number_literal_handling_amended stNumE 50 0 [55] [] (by decide) rfl (by decide) (by decide)
      (by decide) (by decide)).2.1 (by decide) (by decide),
   by decide,
   ((number_literal_handling_amended stHex 50 0 [48, 120, 49, 48] [] (by decide) rfl (by decide)
      (by decide) (by decide) (by decide)).2.2 (by decide)).2.1⟩

/-! Per-opcode dispatch lemmas for the primitive cases used below. -/

end CForth
